import Mathlib

/-!
# The go-doctor protocol commands (cli/protocol/command.go)

A shallow embedding of the six protocol commands About, List, Open, Params,
Setdir and XRun.  Every command has a `Validate` and a `Run`; both receive the
session state and a loosely typed input mapping.

Modelling conventions.

* A Go `map[string]interface{}` is an association list read with
  `List.lookup`; the commands only ever read their input.
* A Go run-time panic (a failed unchecked type assertion `v.(T)`, a method
  call through a nil interface, a nil pointer dereference) is the outcome
  `Outcome.fault`.
* A Go `error` is `Option String`: `none` is the nil error, `some m` an error
  whose `Error()` string is `m`.
* The session state is passed in and returned explicitly, because the Go code
  receives a `*State`.
* The refactoring registry, the `text` package, the file system and `os` are
  not part of the file; they are the fields of `Env`, over an abstract world
  `W` that file operations read and change.
* Go iterates over a map in an unspecified order; an association list fixes
  one such order.
-/

namespace Protocol

/-! ## Dynamic values and outcomes -/

/-- A value of Go type `interface{}` as the commands can receive it: nil, a
bool, an `int`, a `float64` (the finite numbers a JSON decoder produces, kept
as rationals), a string, a `[]interface{}` or a `map[string]interface{}`. -/
inductive Value where
  | null
  | bool (b : Bool)
  | int (i : Int)
  | float (q : Rat)
  | str (s : String)
  | seq (xs : List Value)
  | map (m : List (String × Value))

/-- The input of a command, `map[string]interface{}`. -/
abbrev Input := List (String × Value)

/-- The result of running Go code that may panic. -/
inductive Outcome (α : Type) where
  | ret (a : α)
  | fault

/-- The code returned a value: it did not panic. -/
def Outcome.returns {α : Type} : Outcome α → Bool
  | .ret _ => true
  | .fault => false

/-- The Go conversion `int(f)` of a `float64`: truncation toward zero. -/
def floatToInt (q : Rat) : Int := Int.tdiv q.num q.den

/-- Whether `pat` occurs in the text as a contiguous block. -/
def containsSub : List Char → List Char → Bool
  | [], pat => pat.isEmpty
  | c :: cs, pat => pat.isPrefixOf (c :: cs) || containsSub cs pat

/-- The method `regexp.MustCompile(tag).MatchString(s)` for a tag that is an
alternation `a|b|c` of literal words, given as the list of its alternatives:
the expression is not anchored, so it matches when some alternative occurs
anywhere in `s`. -/
def MatchString (alts : List String) (s : String) : Bool :=
  alts.any (fun a => containsSub s.data a.data)

/-! ## Session state -/

/-- The handle `state.Filesystem`: nil until Setdir binds a local file
system with `filesystem.NewLocalFileSystem()`. -/
inductive FileSystem where
  | unbound
  | localFS
  deriving DecidableEq, Repr

/-- Modelled from the spec: the declaration of `State` is not in the file;
these are the four fields command.go reads and writes. -/
structure State where
  State : Int
  Mode : String
  Dir : String
  Filesystem : FileSystem
  deriving DecidableEq, Repr

/-! ## The transformation engine and the outside world -/

/-- The struct `text.Selection` as built by XRun. -/
structure Selection where
  Filename : String
  StartLine : Int
  StartCol : Int
  EndLine : Int
  EndCol : Int

/-- The struct `refactoring.Config` as built by XRun; its `Scope` is always
nil and is left out. -/
structure Config where
  FileSystem : FileSystem
  Selection : Selection
  Args : List Value

/-- The log severities of the engine. -/
inductive Severity where
  | Info
  | Warning
  | Error
  deriving DecidableEq, Repr

/-- One entry of `result.Log.Entries`. -/
structure Entry where
  Severity : Severity
  Message : String

/-- Modelled from the spec: the file-system changes an engine result can
carry (`filesystem.CreateFile`, `filesystem.Remove`, `filesystem.Rename`). -/
inductive FSChange where
  | CreateFile (Path Contents : String)
  | Remove (Path : String)
  | Rename (Path NewName : String)

/-- The value `*refactoring.Result`; `Edits` lists the map from file name to
edit set in the order the loops of XRun visit it. -/
structure Result (E : Type) where
  Log : List Entry
  Edits : List (String × E)
  FSChanges : List FSChange

/-- One parameter of a transformation. -/
structure Parameter where
  Label : String
  Prompt : String
  DefaultValue : Value

/-- The value returned by `Description()`. -/
structure Description where
  Name : String
  Params : List Parameter

/-- A registered transformation: its description and its `Run`. -/
structure Refactoring (W E : Type) where
  Description : Description
  Run : W → Config → Result E

/-- Modelled from the spec: everything command.go calls outside itself.
`AllRefactorings` is the registry in iteration order and `GetRefactoring`
looks a name up in it; `ReadDir` gives the error of `fs.ReadDir` on a fresh
local file system, if any; `Create` is `os.Create`, `none` when it fails;
`WritePatch w p f d` is `p.Write(f, f, diffFile)` followed by
`diffFile.Close()` for the created file named `d`. -/
structure Env (W E P : Type) where
  AllRefactorings : List (String × Refactoring W E)
  ReadDir : W → String → Option String
  Join : String → String → String
  CreatePatchForFile : W → E → String → Except String P
  ApplyToFile : W → E → String → Except String String
  Create : W → String → Option W
  WritePatch : W → P → String → String → W

/-- The call `refactoring.GetRefactoring(name)`; `none` is the nil interface. -/
def GetRefactoring {W E P : Type} (env : Env W E P) (name : String) :
    Option (Refactoring W E) :=
  env.AllRefactorings.lookup name

/-! ## Replies -/

/-- The run-time type reported by `reflect.TypeOf`. -/
inductive GoType where
  | nilType
  | bool
  | int
  | float64
  | string
  | slice
  | map
  deriving DecidableEq, Repr

/-- The function `reflect.TypeOf` on a dynamic value. -/
def TypeOf : Value → GoType
  | .null => .nilType
  | .bool _ => .bool
  | .int _ => .int
  | .float _ => .float64
  | .str _ => .string
  | .seq _ => .slice
  | .map _ => .map

/-- A value stored in a `map[string]interface{}` record of a reply. -/
inductive Field where
  | str (s : String)
  | type (t : GoType)
  | val (v : Value)

/-- A value stored under a key of a reply: a string, a `[]map[string]string`
or a `[]map[string]interface{}`. -/
inductive ReplyVal where
  | str (s : String)
  | strMaps (l : List (List (String × String)))
  | maps (l : List (List (String × Field)))

/-- The mapping `Reply.Params`. -/
abbrev Reply := List (String × ReplyVal)

/-- What `Validate` leaves behind: the session state and `(bool, error)`. -/
structure VResult where
  state : State
  out : Outcome (Bool × Option String)

/-- What `Run` leaves behind: the session state, the world and
`(Reply, error)`. -/
structure RunResult (W : Type) where
  state : State
  world : W
  out : Outcome (Reply × Option String)

/-- The statement `return Reply{{"reply": "Error", "message": err.Error()}}, err`;
calling `Error()` on a nil error panics. -/
def errorReturn : Option String → Outcome (Reply × Option String)
  | some m => .ret ([("reply", .str "Error"), ("message", .str m)], some m)
  | none => .fault

/-! ## About -/

/-- The method `About.Validate`. -/
def About.Validate (state : State) (_input : Input) : VResult :=
  if state.State > 0 then
    ⟨state, .ret (true, none)⟩
  else
    ⟨state, .ret (false, some "The about command requires a state of non-zero")⟩

/-- The method `About.Run`.  The field `a.aboutText` it sets belongs to the
command value, not to the session. -/
def About.Run {W : Type} (w : W) (state : State) (input : Input) : RunResult W :=
  let v := About.Validate state input
  match v.out with
  | .fault => ⟨v.state, w, .fault⟩
  | .ret (true, _) =>
    ⟨v.state, w, .ret ([("reply", .str "OK"), ("text", .str "Go Doctor about text")], none)⟩
  | .ret (false, err) => ⟨v.state, w, errorReturn err⟩

/-! ## List -/

/-- The alternatives of the tag `chk:"in_testing|in_development|production"`. -/
def List.chk : List String := ["in_testing", "in_development", "production"]

/-- The method `List.Validate`. -/
def List.Validate (state : State) (input : Input) : VResult :=
  if state.State < 1 then
    ⟨state, .ret (false, some "The about command requires a state of non-zero")⟩
  else
    match input.lookup "quality" with
    | none => ⟨state, .ret (false, some "Quality key not found")⟩
    | some (.str q) =>
      if MatchString List.chk q then
        ⟨state, .ret (true, none)⟩
      else
        ⟨state, .ret (false,
          some "Quality key must be \"in_testing|in_development|production\"")⟩
    | some _ => ⟨state, .fault⟩

/-- The loop of `List.Run` over the registry. -/
def List.namesList {W E : Type} (regs : List (String × Refactoring W E)) :
    List (List (String × String)) :=
  regs.map (fun r => [("shortName", r.1), ("name", r.2.Description.Name)])

/-- The method `List.Run`. -/
def List.Run {W E P : Type} (env : Env W E P) (w : W) (state : State) (input : Input) :
    RunResult W :=
  let v := List.Validate state input
  match v.out with
  | .fault => ⟨v.state, w, .fault⟩
  | .ret (true, _) =>
    ⟨v.state, w, .ret ([("reply", .str "OK"),
      ("transformations", .strMaps (List.namesList env.AllRefactorings))], none)⟩
  | .ret (false, err) => ⟨v.state, w, errorReturn err⟩

/-! ## Open -/

/-- The method `Open.Validate`. -/
def Open.Validate (state : State) (_input : Input) : VResult :=
  ⟨state, .ret (true, none)⟩

/-- The method `Open.Run`: it assigns `state.State = 1` without looking at
the state or the input. -/
def Open.Run {W : Type} (w : W) (state : State) (_input : Input) : RunResult W :=
  ⟨{ state with State := 1 }, w, .ret ([("reply", .str "OK")], none)⟩

/-! ## Params -/

/-- The method `Params.Validate`. -/
def Params.Validate (state : State) (input : Input) : VResult :=
  if state.State < 2 then
    ⟨state, .ret (false, some "State of 2 (file system configured) is required")⟩
  else
    match input.lookup "transformation" with
    | none => ⟨state, .ret (false, some "Transformation key not found")⟩
    | some _ => ⟨state, .ret (true, none)⟩

/-- The loop of `Params.Run` over the parameters of the transformation. -/
def Params.params (ps : List Parameter) : List (List (String × Field)) :=
  ps.map (fun p => [("label", .str p.Label), ("prompt", .str p.Prompt),
    ("type", .type (TypeOf p.DefaultValue)), ("default", .val p.DefaultValue)])

/-- The method `Params.Run`. -/
def Params.Run {W E P : Type} (env : Env W E P) (w : W) (state : State) (input : Input) :
    RunResult W :=
  let v := Params.Validate state input
  match v.out with
  | .fault => ⟨v.state, w, .fault⟩
  | .ret (true, _) =>
    match input.lookup "transformation" with
    | some (.str name) =>
      match GetRefactoring env name with
      | some refactoring =>
        ⟨v.state, w, .ret ([("reply", .str "OK"),
          ("params", .maps (Params.params refactoring.Description.Params))], none)⟩
      | none => ⟨v.state, w, .fault⟩
    | _ => ⟨v.state, w, .fault⟩
  | .ret (false, err) => ⟨v.state, w, errorReturn err⟩

/-! ## Setdir -/

/-- The alternatives of the tag `chk:"local|web"`. -/
def Setdir.chk : List String := ["local", "web"]

/-- The method `Setdir.Validate`. -/
def Setdir.Validate {W E P : Type} (env : Env W E P) (w : W) (state : State)
    (input : Input) : VResult :=
  if state.State < 1 then
    ⟨state, .ret (false, some "State must be non-zero for \"setdir\" command")⟩
  else
    match input.lookup "mode" with
    | none => ⟨state, .ret (false, some "\"mode\" key is required")⟩
    | some (.str mode) =>
      if MatchString Setdir.chk mode then
        if mode = "local" then
          match input.lookup "directory" with
          | none =>
            ⟨state, .ret (false, some "\"directory\" key required if \"mode\" is local")⟩
          | some (.str directory) =>
            match env.ReadDir w directory with
            | some err => ⟨state, .ret (false, some err)⟩
            | none => ⟨state, .ret (true, none)⟩
          | some _ => ⟨state, .fault⟩
        else
          ⟨state, .ret (true, none)⟩
      else
        ⟨state, .ret (false, some "\"mode\" key must be \"web|local\"")⟩
    | some _ => ⟨state, .fault⟩

/-- The method `Setdir.Run`.  In the web branch the error returned next to
the Error reply is the `err` of the successful validation. -/
def Setdir.Run {W E P : Type} (env : Env W E P) (w : W) (state : State) (input : Input) :
    RunResult W :=
  let v := Setdir.Validate env w state input
  match v.out with
  | .fault => ⟨v.state, w, .fault⟩
  | .ret (true, err) =>
    match input.lookup "mode" with
    | some (.str mode) =>
      let s1 : State := { v.state with Mode := mode }
      if mode = "local" then
        match input.lookup "directory" with
        | some (.str directory) =>
          let s2 : State := { s1 with Dir := directory, Filesystem := .localFS }
          ⟨{ s2 with State := 2 }, w, .ret ([("reply", .str "OK")], none)⟩
        | _ => ⟨s1, w, .fault⟩
      else if mode = "web" then
        ⟨s1, w, .ret ([("reply", .str "Error"), ("message", .str "Web mode not supported")],
          err)⟩
      else
        ⟨{ s1 with State := 2 }, w, .ret ([("reply", .str "OK")], none)⟩
    | _ => ⟨v.state, w, .fault⟩
  | .ret (false, err) => ⟨v.state, w, errorReturn err⟩

/-! ## XRun -/

/-- The alternatives of the tag `chk:"text|patch"`. -/
def XRun.chk : List String := ["text", "patch"]

/-- The loop of `XRun.Validate` over the registered short names: each
iteration asserts that `input["transformation"]` is a string and compares. -/
def XRun.validName : List String → Option Value → Bool → Outcome Bool
  | [], _, valid => .ret valid
  | shortName :: rest, some (.str t), valid =>
    XRun.validName rest (some (.str t)) (if shortName = t then true else valid)
  | _ :: _, _, _ => .fault

/-- The check of `XRun.Validate` on `input["limit"]`: absent, or an `int`
that is not below zero; the assertion `limit.(int)` panics on anything else. -/
def XRun.limitOk : Option Value → Outcome Bool
  | none => .ret true
  | some (.int limit) => .ret (decide (¬ limit < 0))
  | some _ => .fault

/-- The method `XRun.Validate`. -/
def XRun.Validate {W E P : Type} (env : Env W E P) (state : State) (input : Input) :
    VResult :=
  if state.State < 2 then
    ⟨state, .ret (false, some "State of 2 (file system configured) is required")⟩
  else
    match XRun.validName (env.AllRefactorings.map Prod.fst)
        (input.lookup "transformation") false with
    | .fault => ⟨state, .fault⟩
    | .ret false =>
      ⟨state, .ret (false, some "Transformation given is not a valid refactoring name")⟩
    | .ret true =>
      match XRun.limitOk (input.lookup "limit") with
      | .fault => ⟨state, .fault⟩
      | .ret false => ⟨state, .ret (false, some "\"limit\" key must be a positive integer")⟩
      | .ret true =>
        match input.lookup "mode" with
        | none => ⟨state, .ret (true, none)⟩
        | some (.str mode) =>
          if MatchString XRun.chk mode then
            ⟨state, .ret (true, none)⟩
          else
            ⟨state, .ret (false, some "\"mode\" key must be \"text|patch\"")⟩
        | some _ => ⟨state, .fault⟩

/-- The `text.Selection` literal of `XRun.Run`. -/
def XRun.selection {W E P : Type} (env : Env W E P) (state : State) (input : Input) :
    Outcome Selection :=
  match input.lookup "textselection" with
  | some (.map textselection) =>
    match textselection.lookup "filename", textselection.lookup "startline",
      textselection.lookup "startcol", textselection.lookup "endline",
      textselection.lookup "endcol" with
    | some (.str filename), some (.float sl), some (.float sc), some (.float el),
        some (.float ec) =>
      .ret { Filename := env.Join state.Dir filename, StartLine := floatToInt sl,
             StartCol := floatToInt sc, EndLine := floatToInt el, EndCol := floatToInt ec }
    | _, _, _, _, _ => .fault
  | _ => .fault

/-- The transformation and the configuration `XRun.Run` hands to it. -/
def XRun.prepare {W E P : Type} (env : Env W E P) (state : State) (input : Input) :
    Outcome (Refactoring W E × Config) :=
  match XRun.selection env state input with
  | .fault => .fault
  | .ret ts =>
    match input.lookup "transformation" with
    | some (.str name) =>
      match input.lookup "arguments" with
      | some (.seq args) =>
        match GetRefactoring env name with
        | some refac =>
          .ret (refac, { FileSystem := state.Filesystem, Selection := ts, Args := args })
        | none => .fault
      | _ => .fault
    | _ => .fault

/-- The severity string of a log entry. -/
def XRun.severity : Severity → String
  | .Info => ""
  | .Warning => "warning"
  | .Error => "error"

/-- The loop of `XRun.Run` over the log entries. -/
def XRun.logs (entries : List Entry) : List (List (String × Field)) :=
  entries.map (fun entry =>
    [("severity", .str (XRun.severity entry.Severity)), ("message", .str entry.Message)])

/-- How a loop over the edits ends: it runs to its end, it returns an Error
reply from inside, or it panics. -/
inductive Loop (α : Type) where
  | done (a : α)
  | abort (err : String)
  | fault

/-- The patch loop of `XRun.Run`.  When `os.Create` fails, `diffFile` is nil
and `diffFile.Name()` dereferences it. -/
def XRun.patchFiles {W E P : Type} (env : Env W E P) :
    W → List (String × E) → List (List (String × String)) →
      W × Loop (List (List (String × String)))
  | w, [], changes => (w, .done changes)
  | w, (f, e) :: rest, changes =>
    match env.CreatePatchForFile w e f with
    | .error err => (w, .abort err)
    | .ok p =>
      match env.Create w (f ++ ".diff") with
      | none => (w, .fault)
      | some w1 =>
        XRun.patchFiles env (env.WritePatch w1 p f (f ++ ".diff")) rest
          (changes ++ [[("filename", f), ("patchFile", f ++ ".diff")]])

/-- The text loop of `XRun.Run`. -/
def XRun.textFiles {W E P : Type} (env : Env W E P) (w : W) :
    List (String × E) → List (List (String × String)) →
      Loop (List (List (String × String)))
  | [], changes => .done changes
  | (f, e) :: rest, changes =>
    match env.ApplyToFile w e f with
    | .error err => .abort err
    | .ok content =>
      XRun.textFiles env w rest (changes ++ [[("filename", f), ("content", content)]])

/-- The branch of `XRun.Run` on `input["mode"]`: the patch loop when the key
is absent or holds "patch", the text loop otherwise. -/
def XRun.files {W E P : Type} (env : Env W E P) (w : W) (input : Input)
    (edits : List (String × E)) : W × Loop (List (List (String × String))) :=
  match input.lookup "mode" with
  | none => XRun.patchFiles env w edits []
  | some (.str mode) =>
    if mode = "patch" then XRun.patchFiles env w edits []
    else (w, XRun.textFiles env w edits [])
  | some _ => (w, .fault)

/-- One record of `fschanges`. -/
def XRun.fschange : FSChange → List (String × String)
  | .CreateFile path contents => [("change", "create"), ("file", path), ("content", contents)]
  | .Remove path => [("change", "delete"), ("path", path)]
  | .Rename path newName => [("change", "rename"), ("from", path), ("to", newName)]

/-- The two final `return` statements of `XRun.Run`. -/
def XRun.okReply (name : String) (logs : List (List (String × Field)))
    (changes : List (List (String × String))) (fs : List FSChange) : Reply :=
  if fs.length > 0 then
    [("reply", .str "OK"), ("description", .str name), ("log", .maps logs),
     ("files", .strMaps changes), ("fsChanges", .strMaps (fs.map XRun.fschange))]
  else
    [("reply", .str "OK"), ("description", .str name), ("log", .maps logs),
     ("files", .strMaps changes)]

/-- The method `XRun.Run`. -/
def XRun.Run {W E P : Type} (env : Env W E P) (w : W) (state : State) (input : Input) :
    RunResult W :=
  let v := XRun.Validate env state input
  match v.out with
  | .fault => ⟨v.state, w, .fault⟩
  | .ret (false, err) => ⟨v.state, w, errorReturn err⟩
  | .ret (true, _) =>
    match XRun.prepare env v.state input with
    | .fault => ⟨v.state, w, .fault⟩
    | .ret (refac, config) =>
      let result := refac.Run w config
      let logs := XRun.logs result.Log
      match XRun.files env w input result.Edits with
      | (w1, .fault) => ⟨v.state, w1, .fault⟩
      | (w1, .abort err) => ⟨v.state, w1, errorReturn (some err)⟩
      | (w1, .done changes) =>
        ⟨v.state, w1,
          .ret (XRun.okReply refac.Description.Name logs changes result.FSChanges, none)⟩

/-! ## Dispatch -/

/-- The six implementations of the `Command` interface. -/
inductive Command where
  | About
  | List
  | Open
  | Params
  | Setdir
  | XRun
  deriving DecidableEq, Repr

/-- The interface method `Command.Validate`. -/
def Command.Validate {W E P : Type} (env : Env W E P) (w : W) :
    Command → State → Input → VResult
  | .About, state, input => About.Validate state input
  | .List, state, input => List.Validate state input
  | .Open, state, input => Open.Validate state input
  | .Params, state, input => Params.Validate state input
  | .Setdir, state, input => Setdir.Validate env w state input
  | .XRun, state, input => XRun.Validate env state input

/-- The interface method `Command.Run`. -/
def Command.Run {W E P : Type} (env : Env W E P) (w : W) :
    Command → State → Input → RunResult W
  | .About, state, input => About.Run w state input
  | .List, state, input => List.Run env w state input
  | .Open, state, input => Open.Run w state input
  | .Params, state, input => Params.Run env w state input
  | .Setdir, state, input => Setdir.Run env w state input
  | .XRun, state, input => XRun.Run env w state input

/-! ## A small concrete environment -/

/-- A world that records the diff files written, newest first, as pairs of
file name and patch text; the directory "/missing" cannot be read and the
file "locked.go.diff" cannot be created. -/
abbrev DemoWorld := List (String × String)

/-- A transformation for the examples: it logs one warning, edits the
selected file and reports no file-system change. -/
def demoRename : Refactoring DemoWorld String :=
  { Description := { Name := "Rename", Params := [⟨"newName", "New Name:", .str ""⟩] }
    Run := fun _ config =>
      { Log := [⟨.Warning, "check the result"⟩]
        Edits := [(config.Selection.Filename, "edit")]
        FSChanges := [] } }

/-- A transformation for the examples that asks for one file removal. -/
def demoRemove : Refactoring DemoWorld String :=
  { Description := { Name := "Remove", Params := [] }
    Run := fun _ config =>
      { Log := []
        Edits := []
        FSChanges := [.Remove config.Selection.Filename] } }

/-- The environment of the examples. -/
def demoEnv : Env DemoWorld String String :=
  { AllRefactorings := [("rename", demoRename), ("remove", demoRemove)]
    ReadDir := fun _ d => if d = "/missing" then some "open /missing: no such file" else none
    Join := fun dir f => dir ++ "/" ++ f
    CreatePatchForFile := fun _ e f =>
      if f = "/tmp/proj/gone.go" then .error "gone.go: no such file" else .ok ("patch:" ++ e)
    ApplyToFile := fun _ e f =>
      if f = "/tmp/proj/gone.go" then .error "gone.go: no such file" else .ok ("text:" ++ e)
    Create := fun w d => if d = "/tmp/proj/locked.go.diff" then none else some w
    WritePatch := fun w p _ d => (d, p) :: w }

/-- A fresh session. -/
def freshState : State := ⟨0, "", "", .unbound⟩

/-- A session after Open. -/
def openedState : State := ⟨1, "", "", .unbound⟩

/-- A session after Open and Setdir on "/tmp/proj". -/
def configuredState : State := ⟨2, "local", "/tmp/proj", .localFS⟩

/-- A text selection in the file `f`. -/
def demoSelection (f : String) : Value :=
  .map [("filename", .str f), ("startline", .float 1), ("startcol", .float 1),
        ("endline", .float 1), ("endcol", .float 5)]

/-- The xrun request of the walk-through: rename in "a.go", no mode. -/
def demoXRunInput : Input :=
  [("transformation", .str "rename"), ("textselection", demoSelection "a.go"),
   ("arguments", .seq [.str "newName"])]

/-! ## Inputs whose values have the types the commands assert -/

/-- The key is present and holds a string. -/
def isStr : Option Value → Bool
  | some (.str _) => true
  | _ => false

/-- The key is absent or holds a string. -/
def isOptStr : Option Value → Bool
  | none => true
  | some (.str _) => true
  | some _ => false

/-- The key is absent or holds an `int`. -/
def isOptInt : Option Value → Bool
  | none => true
  | some (.int _) => true
  | some _ => false

/-- The key is present and holds a `float64`. -/
def isFloat : Option Value → Bool
  | some (.float _) => true
  | _ => false

/-- The key is present and holds a `[]interface{}`. -/
def isSeq : Option Value → Bool
  | some (.seq _) => true
  | _ => false

/-- The value is a mapping with a string `filename` and `float64`
coordinates, as the `text.Selection` literal of `XRun.Run` asserts. -/
def selectionTyped : Option Value → Bool
  | some (.map ts) =>
    isStr (ts.lookup "filename") && isFloat (ts.lookup "startline") &&
    isFloat (ts.lookup "startcol") && isFloat (ts.lookup "endline") &&
    isFloat (ts.lookup "endcol")
  | _ => false

/-- The `transformation` key of Params is absent or names a registered
transformation. -/
def registeredOpt {W E P : Type} (env : Env W E P) : Option Value → Bool
  | none => true
  | some (.str t) => (GetRefactoring env t).isSome
  | some _ => false

/-- The inputs on which a command makes no failing type assertion and no call
through a nil transformation: every key the command reads holds a value of
the dynamic type the code asserts for it.  `quality`, `mode` and `directory`
are strings when present; the `transformation` of Params is a registered name
when present; XRun has a string `transformation`, an `int` `limit` when
present, a string `mode` when present, a well-formed `textselection` and a
sequence `arguments`. -/
def WellTyped {W E P : Type} (env : Env W E P) : Command → Input → Bool
  | .About, _ => true
  | .List, i => isOptStr (i.lookup "quality")
  | .Open, _ => true
  | .Params, i => registeredOpt env (i.lookup "transformation")
  | .Setdir, i => isOptStr (i.lookup "mode") && isOptStr (i.lookup "directory")
  | .XRun, i =>
    isStr (i.lookup "transformation") && isOptInt (i.lookup "limit") &&
    isOptStr (i.lookup "mode") && selectionTyped (i.lookup "textselection") &&
    isSeq (i.lookup "arguments")

/-- The environment of the examples with every diff file creatable. -/
def plainEnv : Env DemoWorld String String :=
  { demoEnv with Create := fun w _ => some w }

/-! ## Properties -/

/-- Adding a binding for another key does not change what a key maps to. -/
theorem lookup_cons_of_ne (k k1 : String) (v : Value) (i : Input) (h : k ≠ k1) :
    List.lookup k ((k1, v) :: i) = List.lookup k i := by
  have hb : (k == k1) = false := by simpa using h
  simp only [List.lookup, hb]

/-! ## Validation never writes the session -/

/-- The method `About.Validate` never writes the session state. -/
theorem about_validate_state (s : State) (i : Input) : (About.Validate s i).state = s := by
  unfold About.Validate; split <;> rfl

/-- The method `List.Validate` never writes the session state. -/
theorem list_validate_state (s : State) (i : Input) : (List.Validate s i).state = s := by
  unfold List.Validate; repeat (first | rfl | split)

/-- The method `Params.Validate` never writes the session state. -/
theorem params_validate_state (s : State) (i : Input) : (Params.Validate s i).state = s := by
  unfold Params.Validate; repeat (first | rfl | split)

/-- The method `Setdir.Validate` never writes the session state. -/
theorem setdir_validate_state {W E P : Type} (env : Env W E P) (w : W) (s : State) (i : Input) :
    (Setdir.Validate env w s i).state = s := by
  unfold Setdir.Validate; repeat (first | rfl | split)

/-- The method `XRun.Validate` never writes the session state. -/
theorem xrun_validate_state {W E P : Type} (env : Env W E P) (s : State) (i : Input) :
    (XRun.Validate env s i).state = s := by
  unfold XRun.Validate; repeat (first | rfl | split)

/-- No `Validate` writes the session state. -/
theorem command_validate_state {W E P : Type} (env : Env W E P) (w : W) (c : Command)
    (s : State) (i : Input) : (Command.Validate env w c s i).state = s := by
  cases c
  · exact about_validate_state s i
  · exact list_validate_state s i
  · rfl
  · exact params_validate_state s i
  · exact setdir_validate_state env w s i
  · exact xrun_validate_state env s i

/-- C1: for every command, session state `s` and input `i`, if `Validate` returns
false then the session state after `Validate` and the session state after
`Run` both equal `s` in every field. -/
theorem validate_false_state_unchanged {W E P : Type} (env : Env W E P) (w : W)
    (c : Command) (s : State) (i : Input) (err : Option String)
    (h : (Command.Validate env w c s i).out = .ret (false, err)) :
    (Command.Validate env w c s i).state = s ∧ (Command.Run env w c s i).state = s := by
  refine ⟨command_validate_state env w c s i, ?_⟩
  cases c
  · simp only [Command.Validate] at h
    simp only [Command.Run, About.Run, h, about_validate_state]
  · simp only [Command.Validate] at h
    simp only [Command.Run, List.Run, h, list_validate_state]
  · simp [Command.Validate, Open.Validate] at h
  · simp only [Command.Validate] at h
    simp only [Command.Run, Params.Run, h, params_validate_state]
  · simp only [Command.Validate] at h
    simp only [Command.Run, Setdir.Run, h, setdir_validate_state]
  · simp only [Command.Validate] at h
    simp only [Command.Run, XRun.Run, h, xrun_validate_state]

/-- C1, at an instance: Setdir on an opened session with an unreadable
directory is rejected and leaves the session as it was. -/
theorem validate_false_state_unchanged_witness :
    (Command.Validate demoEnv [] .Setdir openedState
        [("mode", .str "local"), ("directory", .str "/missing")]).out
      = .ret (false, some "open /missing: no such file") ∧
    (Command.Validate demoEnv [] .Setdir openedState
        [("mode", .str "local"), ("directory", .str "/missing")]).state = openedState ∧
    (Command.Run demoEnv [] .Setdir openedState
        [("mode", .str "local"), ("directory", .str "/missing")]).state = openedState :=
  ⟨rfl, validate_false_state_unchanged demoEnv [] .Setdir openedState
    [("mode", .str "local"), ("directory", .str "/missing")] _ rfl⟩

/-- C2 fails as stated: Open run on a configured session (stage 2) leaves
the stage at 1, which is lower. -/
theorem stage_monotonic_counterexample :
    ¬ (configuredState.State ≤
        (Command.Run demoEnv [] .Open configuredState []).state.State) := by
  decide

/-- C2, amended: for every session state whose stage is at most 2 and every
input, every command other than Open leaves the stage at least as high as it
was, and so does Open when the stage is at most 1. -/
theorem stage_monotonic_amended {W E P : Type} (env : Env W E P) (w : W) (c : Command)
    (s : State) (i : Input) (hs : s.State ≤ 2) (hc : c ≠ .Open ∨ s.State ≤ 1) :
    s.State ≤ (Command.Run env w c s i).state.State := by
  cases c
  · simp only [Command.Run, About.Run, about_validate_state]
    repeat (first | exact le_refl _ | split)
  · simp only [Command.Run, List.Run, list_validate_state]
    repeat (first | exact le_refl _ | split)
  · simp only [Command.Run, Open.Run]
    rcases hc with hc | hc
    · exact absurd rfl hc
    · exact hc
  · simp only [Command.Run, Params.Run, params_validate_state]
    repeat (first | exact le_refl _ | split)
  · simp only [Command.Run, Setdir.Run, setdir_validate_state]
    repeat (first | exact le_refl _ | exact hs | split)
  · simp only [Command.Run, XRun.Run, xrun_validate_state]
    repeat (first | exact le_refl _ | split)

/-- C2 amended, at an instance: Setdir on an opened session. -/
theorem stage_monotonic_amended_witness :
    openedState.State ≤ 2 ∧ (Command.Setdir ≠ .Open ∨ openedState.State ≤ 1) ∧
    openedState.State ≤ (Command.Run demoEnv [] .Setdir openedState
      [("mode", .str "local"), ("directory", .str "/tmp/proj")]).state.State :=
  ⟨by decide, by decide, stage_monotonic_amended demoEnv [] .Setdir openedState
      [("mode", .str "local"), ("directory", .str "/tmp/proj")] (by decide) (by decide)⟩

/-- C3 fails as stated: Open run on a session whose stage is 2 does not
leave the stage at 2. -/
theorem open_at_stage_two_counterexample :
    configuredState.State = 2 ∧
    (Open.Run ([] : DemoWorld) configuredState []).state.State ≠ 2 := by
  decide

/-- C3, amended: for every state (so also one whose stage is 2) and every
input, `Open.Run` returns the OK reply with a nil error and sets the stage to
1, leaving mode, directory and file system as they were. -/
theorem open_sets_stage_one {W : Type} (w : W) (s : State) (i : Input) :
    (Open.Run w s i).out = .ret ([("reply", .str "OK")], none) ∧
    (Open.Run w s i).state = { s with State := 1 } := by
  simp [Open.Run]

/-- C4: for every session state and every input whose `mode` is the string
"web", whatever its other keys, `Setdir.Run` returns a reply whose `reply`
field is "Error" and the stage is unchanged. -/
theorem setdir_web_is_error {W E P : Type} (env : Env W E P) (w : W) (s : State)
    (i : Input) (h : i.lookup "mode" = some (.str "web")) :
    ∃ reply err, (Setdir.Run env w s i).out = .ret (reply, err) ∧
      reply.lookup "reply" = some (.str "Error") ∧
      (Setdir.Run env w s i).state.State = s.State := by
  by_cases hs : s.State < 1
  · refine ⟨[("reply", .str "Error"),
      ("message", .str "State must be non-zero for \"setdir\" command")],
      some "State must be non-zero for \"setdir\" command", ?_, rfl, ?_⟩
    · simp only [Setdir.Run, Setdir.Validate, hs, if_true, errorReturn]
    · simp only [Setdir.Run, Setdir.Validate, hs, if_true]
  · have hm : MatchString Setdir.chk "web" = true := by decide
    have hl : ¬ ("web" = "local") := by decide
    refine ⟨[("reply", .str "Error"), ("message", .str "Web mode not supported")],
      none, ?_, rfl, ?_⟩
    · simp only [Setdir.Run, Setdir.Validate, hs, if_false, h, hm, hl, if_true]
    · simp only [Setdir.Run, Setdir.Validate, hs, if_false, h, hm, hl, if_true]

/-- C4, at an instance: a configured session and an input that also has a
wrongly typed `directory`. -/
theorem setdir_web_is_error_witness :
    List.lookup "mode" [("directory", Value.float 7), ("mode", Value.str "web")]
      = some (.str "web") ∧
    ∃ reply err, (Setdir.Run demoEnv [] configuredState
        [("directory", .float 7), ("mode", .str "web")]).out = .ret (reply, err) ∧
      reply.lookup "reply" = some (.str "Error") ∧
      (Setdir.Run demoEnv [] configuredState
        [("directory", .float 7), ("mode", .str "web")]).state.State
        = configuredState.State :=
  ⟨rfl, setdir_web_is_error demoEnv [] configuredState
    [("directory", .float 7), ("mode", .str "web")] rfl⟩

/-- C5: for every input mapping, `List.Validate` returns false when the
stage is below 1, and `Params.Validate` and `XRun.Validate` return false when
the stage is below 2; each returns its stage error and none panics. -/
theorem stage_precondition_first {W E P : Type} (env : Env W E P) (s : State) (i : Input) :
    (s.State < 1 → (List.Validate s i).out
      = .ret (false, some "The about command requires a state of non-zero")) ∧
    (s.State < 2 → (Params.Validate s i).out
      = .ret (false, some "State of 2 (file system configured) is required")) ∧
    (s.State < 2 → (XRun.Validate env s i).out
      = .ret (false, some "State of 2 (file system configured) is required")) := by
  refine ⟨fun h => ?_, fun h => ?_, fun h => ?_⟩
  · simp only [List.Validate, h, if_true]
  · simp only [Params.Validate, h, if_true]
  · simp only [XRun.Validate, h, if_true]

/-- C5, at instances with missing and wrongly typed keys. -/
theorem stage_precondition_first_witness :
    (List.Validate freshState [("quality", .float 3)]).out
      = .ret (false, some "The about command requires a state of non-zero") ∧
    (Params.Validate openedState []).out
      = .ret (false, some "State of 2 (file system configured) is required") ∧
    (XRun.Validate demoEnv openedState [("limit", .str "x")]).out
      = .ret (false, some "State of 2 (file system configured) is required") :=
  ⟨(stage_precondition_first demoEnv freshState [("quality", .float 3)]).1 (by decide),
   (stage_precondition_first demoEnv openedState []).2.1 (by decide),
   (stage_precondition_first demoEnv openedState [("limit", .str "x")]).2.2 (by decide)⟩

/-- C6: for every session state, world and engine, and every input `i`
without a `mode` key, XRun on any input `j` that maps `mode` to "patch" and
agrees with `i` on every other key behaves as on `i`: `Validate` gives the
same outcome and `Run` the same state, the same world (the diff files
written) and the same reply and error. -/
theorem xrun_mode_absent_is_patch {W E P : Type} (env : Env W E P) (w : W) (s : State)
    (i j : Input) (hi : i.lookup "mode" = none)
    (hj : j.lookup "mode" = some (.str "patch"))
    (hk : ∀ k : String, k ≠ "mode" → j.lookup k = i.lookup k) :
    XRun.Validate env s j = XRun.Validate env s i ∧
    XRun.Run env w s j = XRun.Run env w s i := by
  have ht : j.lookup "transformation" = i.lookup "transformation" := hk _ (by decide)
  have hl : j.lookup "limit" = i.lookup "limit" := hk _ (by decide)
  have hs : j.lookup "textselection" = i.lookup "textselection" := hk _ (by decide)
  have ha : j.lookup "arguments" = i.lookup "arguments" := hk _ (by decide)
  have hm : MatchString XRun.chk "patch" = true := by decide
  have hv : XRun.Validate env s j = XRun.Validate env s i := by
    simp only [XRun.Validate, ht, hl, hi, hj, hm, if_true]
  have hp : ∀ st : State, XRun.prepare env st j = XRun.prepare env st i := by
    intro st
    simp only [XRun.prepare, XRun.selection, ht, hs, ha]
  have hf : ∀ (w1 : W) (edits : List (String × E)),
      XRun.files env w1 j edits = XRun.files env w1 i edits := by
    intro w1 edits
    simp only [XRun.files, hi, hj, if_true]
  refine ⟨hv, ?_⟩
  simp only [XRun.Run, hv, hp, hf]

/-- C6, at an instance: the walk-through request with and without
`mode = "patch"`. -/
theorem xrun_mode_absent_is_patch_witness :
    List.lookup "mode" demoXRunInput = none ∧
    XRun.Validate demoEnv configuredState (("mode", .str "patch") :: demoXRunInput)
      = XRun.Validate demoEnv configuredState demoXRunInput ∧
    XRun.Run demoEnv [] configuredState (("mode", .str "patch") :: demoXRunInput)
      = XRun.Run demoEnv [] configuredState demoXRunInput :=
  ⟨rfl, xrun_mode_absent_is_patch demoEnv [] configuredState demoXRunInput
    (("mode", .str "patch") :: demoXRunInput) rfl rfl
    (fun k hk => lookup_cons_of_ne k "mode" (.str "patch") demoXRunInput hk)⟩

/-! ## XRun replies -/

/-- The key `fsChanges` of the final reply of `XRun.Run`. -/
theorem okReply_lookup_fsChanges (name : String) (logs : List (List (String × Field)))
    (changes : List (List (String × String))) (fs : List FSChange) :
    (XRun.okReply name logs changes fs).lookup "fsChanges" =
      match fs with
      | [] => none
      | c :: cs => some (.strMaps ((c :: cs).map XRun.fschange)) := by
  cases fs with
  | nil => rfl
  | cons c cs => simp [XRun.okReply, List.lookup]

/-- An Error reply built by `errorReturn` is not an OK reply. -/
theorem errorReturn_not_ok (e : Option String) (reply : Reply) (err : Option String)
    (h : errorReturn e = .ret (reply, err)) :
    reply.lookup "reply" = some (.str "Error") := by
  cases e with
  | none => simp [errorReturn] at h
  | some m =>
    simp only [errorReturn, Outcome.ret.injEq, Prod.mk.injEq] at h
    rw [← h.1]; rfl

/-- C7: whenever `XRun.Run` returns an OK reply, the engine was run on the
prepared configuration, and the reply has the key `fsChanges` if and only if
the change sequence of the engine result is non-empty; the key is never mapped
to an empty list. -/
theorem fsChanges_key_iff_nonempty {W E P : Type} (env : Env W E P) (w : W) (s : State)
    (i : Input) (reply : Reply) (err : Option String)
    (h : (XRun.Run env w s i).out = .ret (reply, err))
    (hok : reply.lookup "reply" = some (.str "OK")) :
    ∃ refac config, XRun.prepare env s i = .ret (refac, config) ∧
      ((reply.lookup "fsChanges").isSome = true ↔ (refac.Run w config).FSChanges ≠ []) ∧
      reply.lookup "fsChanges" ≠ some (.strMaps []) := by
  unfold XRun.Run at h
  simp only [xrun_validate_state] at h
  split at h
  · simp at h
  · have := errorReturn_not_ok _ _ _ h
    rw [this] at hok; simp at hok
  · split at h
    · simp at h
    · rename_i refac config hp
      refine ⟨refac, config, hp, ?_⟩
      split at h
      · simp at h
      · dsimp only at h
        have := errorReturn_not_ok _ _ _ h
        rw [this] at hok; simp at hok
      · simp only [Outcome.ret.injEq, Prod.mk.injEq] at h
        rw [← h.1, okReply_lookup_fsChanges]
        cases (refac.Run w config).FSChanges with
        | nil => simp
        | cons c cs => simp

/-- C7, at an instance: a transformation that reports one file removal. -/
theorem fsChanges_key_iff_nonempty_witness :
    (XRun.Run demoEnv [] configuredState
      [("transformation", .str "remove"), ("textselection", demoSelection "a.go"),
       ("arguments", .seq [])]).out
      = .ret ([("reply", .str "OK"), ("description", .str "Remove"), ("log", .maps []),
          ("files", .strMaps []),
          ("fsChanges", .strMaps [[("change", "delete"), ("path", "/tmp/proj/a.go")]])],
          none) ∧
    ∃ refac config, XRun.prepare demoEnv configuredState
        [("transformation", .str "remove"), ("textselection", demoSelection "a.go"),
         ("arguments", .seq [])] = .ret (refac, config) ∧
      ((List.lookup "fsChanges" ([("reply", .str "OK"), ("description", .str "Remove"),
          ("log", .maps []), ("files", .strMaps []),
          ("fsChanges", .strMaps [[("change", "delete"), ("path", "/tmp/proj/a.go")]])]
          : Reply)).isSome = true
        ↔ (refac.Run [] config).FSChanges ≠ []) ∧
      List.lookup "fsChanges" ([("reply", .str "OK"), ("description", .str "Remove"),
          ("log", .maps []), ("files", .strMaps []),
          ("fsChanges", .strMaps [[("change", "delete"), ("path", "/tmp/proj/a.go")]])]
          : Reply) ≠ some (.strMaps []) :=
  ⟨rfl, fsChanges_key_iff_nonempty demoEnv [] configuredState
      [("transformation", .str "remove"), ("textselection", demoSelection "a.go"),
       ("arguments", .seq [])] _ none rfl rfl⟩

/-- The name loop of `XRun.Validate` on a string: it never panics and reports
whether the name is registered. -/
theorem validName_str (names : List String) (t : String) (b : Bool) :
    XRun.validName names (some (.str t)) b = .ret (b || decide (t ∈ names)) := by
  induction names generalizing b with
  | nil => simp [XRun.validName]
  | cons n ns ih =>
    simp only [XRun.validName, ih]
    by_cases hn : n = t
    · simp [hn]
    · have : ¬ t = n := fun h => hn h.symm
      simp [hn, this]

/-- C8 fails as stated: at stage 1 an XRun input with `limit` equal to -1 gets
the stage message, not the invalid-limit message. -/
theorem limit_minus_one_counterexample :
    List.lookup "limit" (("limit", Value.int (-1)) :: demoXRunInput) = some (.int (-1)) ∧
    (XRun.Run demoEnv [] openedState (("limit", .int (-1)) :: demoXRunInput)).out
      = .ret ([("reply", .str "Error"),
          ("message", .str "State of 2 (file system configured) is required")],
          some "State of 2 (file system configured) is required") ∧
    ¬ ∃ err, (XRun.Run demoEnv [] openedState (("limit", .int (-1)) :: demoXRunInput)).out
      = .ret ([("reply", .str "Error"),
          ("message", .str "\"limit\" key must be a positive integer")], err) := by
  refine ⟨rfl, rfl, ?_⟩
  rintro ⟨err, h⟩
  have h2 : (XRun.Run demoEnv [] openedState (("limit", .int (-1)) :: demoXRunInput)).out
      = .ret ([("reply", .str "Error"),
          ("message", .str "State of 2 (file system configured) is required")],
          some "State of 2 (file system configured) is required") := rfl
  rw [h2] at h
  simp at h

/-- C8, amended: at stage 2 or above, for every XRun input whose
`transformation` is a registered name and whose `limit` is the int -1,
`XRun.Run` returns the Error reply with the invalid-limit message and that
error, whatever the other fields are, and changes neither the session nor
the world. -/
theorem limit_minus_one_rejected {W E P : Type} (env : Env W E P) (w : W) (s : State)
    (i : Input) (t : String) (hs : 2 ≤ s.State)
    (ht : i.lookup "transformation" = some (.str t))
    (hreg : t ∈ env.AllRefactorings.map Prod.fst)
    (hl : i.lookup "limit" = some (.int (-1))) :
    (XRun.Run env w s i).out
      = .ret ([("reply", .str "Error"),
          ("message", .str "\"limit\" key must be a positive integer")],
          some "\"limit\" key must be a positive integer") ∧
    (XRun.Run env w s i).state = s ∧ (XRun.Run env w s i).world = w := by
  have hs2 : ¬ s.State < 2 := not_lt.mpr hs
  have hv : (XRun.Validate env s i).out
      = .ret (false, some "\"limit\" key must be a positive integer") := by
    simp only [XRun.Validate, hs2, if_false, ht, validName_str, hreg, hl, XRun.limitOk]
    simp
  refine ⟨?_, ?_, ?_⟩
  · simp only [XRun.Run, hv, errorReturn]
  · simp only [XRun.Run, hv, xrun_validate_state]
  · simp only [XRun.Run, hv]

/-- C8 amended, at an instance: an input with no text selection and no
arguments. -/
theorem limit_minus_one_rejected_witness :
    (2 : Int) ≤ configuredState.State ∧
    List.lookup "transformation" [("limit", Value.int (-1)), ("transformation", .str "rename")]
      = some (.str "rename") ∧
    "rename" ∈ demoEnv.AllRefactorings.map Prod.fst ∧
    List.lookup "limit" [("limit", Value.int (-1)), ("transformation", .str "rename")]
      = some (.int (-1)) ∧
    (XRun.Run demoEnv [] configuredState
        [("limit", .int (-1)), ("transformation", .str "rename")]).out
      = .ret ([("reply", .str "Error"),
          ("message", .str "\"limit\" key must be a positive integer")],
          some "\"limit\" key must be a positive integer") ∧
    (XRun.Run demoEnv [] configuredState
        [("limit", .int (-1)), ("transformation", .str "rename")]).state = configuredState ∧
    (XRun.Run demoEnv [] configuredState
        [("limit", .int (-1)), ("transformation", .str "rename")]).world = [] :=
  ⟨by decide, rfl, by decide, rfl,
    limit_minus_one_rejected demoEnv [] configuredState
      [("limit", .int (-1)), ("transformation", .str "rename")] "rename"
      (by decide) rfl (by decide) rfl⟩

/-! ## Panics -/

/-- A rejecting `Validate` always carries an error. -/
theorem validate_false_has_error {W E P : Type} (env : Env W E P) (w : W) (c : Command)
    (s : State) (i : Input) (err : Option String)
    (h : (Command.Validate env w c s i).out = .ret (false, err)) : ∃ m, err = some m := by
  cases c
  · simp only [Command.Validate, About.Validate] at h
    split at h <;> simp at h
    exact ⟨_, h.symm⟩
  · simp only [Command.Validate, List.Validate] at h
    repeat' (first | (simp at h; done) | (simp at h; exact ⟨_, h.symm⟩) | split at h)
  · simp [Command.Validate, Open.Validate] at h
  · simp only [Command.Validate, Params.Validate] at h
    repeat' (first | (simp at h; done) | (simp at h; exact ⟨_, h.symm⟩) | split at h)
  · simp only [Command.Validate, Setdir.Validate] at h
    repeat' (first | (simp at h; done) | (simp at h; exact ⟨_, h.symm⟩) | split at h)
  · simp only [Command.Validate, XRun.Validate] at h
    repeat' (first | (simp at h; done) | (simp at h; exact ⟨_, h.symm⟩) | split at h)

/-- A registered short name is found by the registry lookup. -/
theorem lookup_of_mem_keys {β : Type} (l : List (String × β)) (t : String)
    (h : t ∈ l.map Prod.fst) : ∃ v, l.lookup t = some v := by
  induction l with
  | nil => simp at h
  | cons p ps ih =>
    obtain ⟨k, v⟩ := p
    by_cases hk : t = k
    · exact ⟨v, by simp [List.lookup, hk]⟩
    · have hb : (t == k) = false := by simpa using hk
      have hm : t ∈ ps.map Prod.fst := by
        simp only [List.map_cons, List.mem_cons] at h
        rcases h with h | h
        · exact absurd h hk
        · exact h
      obtain ⟨v1, hv1⟩ := ih hm
      exact ⟨v1, by simp only [List.lookup, hb, hv1]⟩

/-- The patch loop does not panic when every diff file can be created. -/
theorem patchFiles_no_fault {W E P : Type} (env : Env W E P)
    (hc : ∀ (w : W) (f : String), (env.Create w f).isSome = true)
    (edits : List (String × E)) :
    ∀ (w : W) (changes : List (List (String × String))),
      (XRun.patchFiles env w edits changes).2 ≠ .fault := by
  induction edits with
  | nil => intro w changes; simp [XRun.patchFiles]
  | cons fe rest ih =>
    intro w changes
    obtain ⟨f, e⟩ := fe
    simp only [XRun.patchFiles]
    split
    · simp
    · have := hc w (f ++ ".diff")
      split
      · rename_i hnone
        rw [hnone] at this
        simp at this
      · exact ih _ _

/-- The text loop never panics. -/
theorem textFiles_no_fault {W E P : Type} (env : Env W E P) (w : W)
    (edits : List (String × E)) :
    ∀ changes : List (List (String × String)),
      XRun.textFiles env w edits changes ≠ .fault := by
  induction edits with
  | nil => intro changes; simp [XRun.textFiles]
  | cons fe rest ih =>
    intro changes
    obtain ⟨f, e⟩ := fe
    simp only [XRun.textFiles]
    split
    · simp
    · exact ih _

/-- What `isStr` says about the key. -/
theorem isStr_eq_true (v : Option Value) (h : isStr v = true) : ∃ s, v = some (.str s) := by
  unfold isStr at h
  split at h
  · exact ⟨_, rfl⟩
  · simp at h

/-- What `isOptStr` says about the key. -/
theorem isOptStr_eq_true (v : Option Value) (h : isOptStr v = true) :
    v = none ∨ ∃ s, v = some (.str s) := by
  unfold isOptStr at h
  split at h
  · exact Or.inl rfl
  · exact Or.inr ⟨_, rfl⟩
  · simp at h

/-- What `isOptInt` says about the key. -/
theorem isOptInt_eq_true (v : Option Value) (h : isOptInt v = true) :
    v = none ∨ ∃ n, v = some (.int n) := by
  unfold isOptInt at h
  split at h
  · exact Or.inl rfl
  · exact Or.inr ⟨_, rfl⟩
  · simp at h

/-- What `isFloat` says about the key. -/
theorem isFloat_eq_true (v : Option Value) (h : isFloat v = true) :
    ∃ q, v = some (.float q) := by
  unfold isFloat at h
  split at h
  · exact ⟨_, rfl⟩
  · simp at h

/-- What `isSeq` says about the key. -/
theorem isSeq_eq_true (v : Option Value) (h : isSeq v = true) : ∃ xs, v = some (.seq xs) := by
  unfold isSeq at h
  split at h
  · exact ⟨_, rfl⟩
  · simp at h

/-- A well-typed text selection is turned into a `text.Selection`. -/
theorem selection_of_typed {W E P : Type} (env : Env W E P) (s : State) (i : Input)
    (h : selectionTyped (i.lookup "textselection") = true) :
    ∃ ts, XRun.selection env s i = .ret ts := by
  unfold selectionTyped at h
  split at h
  · rename_i ts hts
    simp only [Bool.and_eq_true] at h
    obtain ⟨⟨⟨⟨h1, h2⟩, h3⟩, h4⟩, h5⟩ := h
    obtain ⟨f, hf⟩ := isStr_eq_true _ h1
    obtain ⟨a, ha⟩ := isFloat_eq_true _ h2
    obtain ⟨b, hb⟩ := isFloat_eq_true _ h3
    obtain ⟨c, hc⟩ := isFloat_eq_true _ h4
    obtain ⟨d, hd⟩ := isFloat_eq_true _ h5
    exact ⟨{ Filename := env.Join s.Dir f, StartLine := floatToInt a,
             StartCol := floatToInt b, EndLine := floatToInt c, EndCol := floatToInt d },
      by simp only [XRun.selection, hts, hf, ha, hb, hc, hd]⟩
  · simp at h

/-- About never panics. -/
theorem about_no_fault {W : Type} (w : W) (s : State) (i : Input) :
    (About.Validate s i).out.returns = true ∧ (About.Run w s i).out.returns = true := by
  by_cases h : s.State > 0
  · simp [About.Run, About.Validate, h, if_true, Outcome.returns, and_self]
  · simp [About.Run, About.Validate, h, if_false, Outcome.returns, errorReturn, and_self]

/-- List does not panic when `quality` is a string or absent. -/
theorem list_no_fault {W E P : Type} (env : Env W E P) (w : W) (s : State) (i : Input)
    (ht : isOptStr (i.lookup "quality") = true) :
    (List.Validate s i).out.returns = true ∧ (List.Run env w s i).out.returns = true := by
  by_cases h : s.State < 1
  · simp [List.Run, List.Validate, h, if_true, Outcome.returns, errorReturn, and_self]
  · rcases isOptStr_eq_true _ ht with hq | ⟨q, hq⟩
    · simp [List.Run, List.Validate, h, if_false, hq, Outcome.returns, errorReturn,
        and_self]
    · by_cases hm : MatchString List.chk q = true
      · simp [List.Run, List.Validate, h, if_false, hq, hm, if_true, Outcome.returns,
          and_self]
      · simp [List.Run, List.Validate, h, if_false, hq, hm, Outcome.returns,
          errorReturn, and_self]

/-- Params does not panic when `transformation` is a registered name or absent. -/
theorem params_no_fault {W E P : Type} (env : Env W E P) (w : W) (s : State) (i : Input)
    (ht : registeredOpt env (i.lookup "transformation") = true) :
    (Params.Validate s i).out.returns = true ∧ (Params.Run env w s i).out.returns = true := by
  by_cases h : s.State < 2
  · simp [Params.Run, Params.Validate, h, if_true, Outcome.returns, errorReturn,
      and_self]
  · unfold registeredOpt at ht
    split at ht
    · rename_i hq
      simp [Params.Run, Params.Validate, h, if_false, hq, Outcome.returns, errorReturn,
        and_self]
    · rename_i t hq
      obtain ⟨r, hr⟩ := Option.isSome_iff_exists.mp ht
      simp [Params.Run, Params.Validate, h, if_false, hq, hr, Outcome.returns, and_self]
    · simp at ht

/-- Setdir does not panic when `mode` and `directory` are strings or absent. -/
theorem setdir_no_fault {W E P : Type} (env : Env W E P) (w : W) (s : State) (i : Input)
    (hm : isOptStr (i.lookup "mode") = true) (hd : isOptStr (i.lookup "directory") = true) :
    (Setdir.Validate env w s i).out.returns = true ∧
    (Setdir.Run env w s i).out.returns = true := by
  by_cases h : s.State < 1
  · simp [Setdir.Run, Setdir.Validate, h, if_true, Outcome.returns, errorReturn,
      and_self]
  · rcases isOptStr_eq_true _ hm with hq | ⟨m, hq⟩
    · simp [Setdir.Run, Setdir.Validate, h, if_false, hq, Outcome.returns, errorReturn,
        and_self]
    · by_cases hmt : MatchString Setdir.chk m = true
      · by_cases hl : m = "local"
        · subst hl
          rcases isOptStr_eq_true _ hd with hdq | ⟨d, hdq⟩
          · simp [Setdir.Run, Setdir.Validate, h, if_false, hq, hmt, if_true, hdq,
              Outcome.returns, errorReturn, and_self]
          · cases hr : env.ReadDir w d with
            | none =>
              simp [Setdir.Run, Setdir.Validate, h, if_false, hq, hmt, if_true, hdq,
                hr, Outcome.returns, and_self]
            | some e =>
              simp [Setdir.Run, Setdir.Validate, h, if_false, hq, hmt, if_true, hdq,
                hr, Outcome.returns, errorReturn, and_self]
        · by_cases hw : m = "web"
          · subst hw
            simp [Setdir.Run, Setdir.Validate, h, if_false, hq, hmt, if_true, hl,
              Outcome.returns, and_self]
          · simp [Setdir.Run, Setdir.Validate, h, if_false, hq, hmt, if_true, hl, hw,
              Outcome.returns, and_self]
      · simp [Setdir.Run, Setdir.Validate, h, if_false, hq, hmt, Outcome.returns,
          errorReturn, and_self]

/-- An accepted XRun input names a registered transformation. -/
theorem xrun_valid_registered {W E P : Type} (env : Env W E P) (s : State) (i : Input)
    (t : String) (e : Option String)
    (ht : i.lookup "transformation" = some (.str t))
    (hv : (XRun.Validate env s i).out = .ret (true, e)) :
    t ∈ env.AllRefactorings.map Prod.fst := by
  by_contra hreg
  unfold XRun.Validate at hv
  split at hv
  · simp at hv
  · simp [ht, validName_str, hreg] at hv

/-- The validation of XRun does not panic on a well-typed input. -/
theorem xrun_validate_returns {W E P : Type} (env : Env W E P) (s : State) (i : Input)
    (ht : isStr (i.lookup "transformation") = true)
    (hl : isOptInt (i.lookup "limit") = true)
    (hm : isOptStr (i.lookup "mode") = true) :
    (XRun.Validate env s i).out.returns = true := by
  obtain ⟨t, ht⟩ := isStr_eq_true _ ht
  unfold XRun.Validate
  split
  · rfl
  · rw [ht, validName_str]
    by_cases hreg : t ∈ env.AllRefactorings.map Prod.fst
    · rcases isOptInt_eq_true _ hl with hl | ⟨n, hl⟩
      · rcases isOptStr_eq_true _ hm with hm | ⟨m, hm⟩
        · simp [hreg, hl, hm, XRun.limitOk, Outcome.returns]
        · by_cases hmt : MatchString XRun.chk m = true
          · simp [hreg, hl, hm, hmt, XRun.limitOk, Outcome.returns]
          · simp [hreg, hl, hm, hmt, XRun.limitOk, Outcome.returns]
      · by_cases hn : n < 0
        · simp [hreg, hl, hn, XRun.limitOk, Outcome.returns]
        · rcases isOptStr_eq_true _ hm with hm | ⟨m, hm⟩
          · simp [hreg, hl, hn, hm, XRun.limitOk, Outcome.returns]
          · by_cases hmt : MatchString XRun.chk m = true
            · simp [hreg, hl, hn, hm, hmt, XRun.limitOk, Outcome.returns]
            · simp [hreg, hl, hn, hm, hmt, XRun.limitOk, Outcome.returns]
    · simp [hreg, Outcome.returns]

/-- The loops of `XRun.Run` over the edits do not panic when the mode is a
string or absent and every diff file can be created. -/
theorem files_no_fault {W E P : Type} (env : Env W E P) (w : W) (i : Input)
    (edits : List (String × E))
    (hm : isOptStr (i.lookup "mode") = true)
    (hc : ∀ (w : W) (f : String), (env.Create w f).isSome = true) :
    (XRun.files env w i edits).2 ≠ .fault := by
  rcases isOptStr_eq_true _ hm with hm | ⟨m, hm⟩
  · simp only [XRun.files, hm]
    exact patchFiles_no_fault env hc edits w []
  · simp only [XRun.files, hm]
    split
    · exact patchFiles_no_fault env hc edits w []
    · exact textFiles_no_fault env w edits []

/-- XRun does not panic on a well-typed input when every diff file can be
created. -/
theorem xrun_no_fault {W E P : Type} (env : Env W E P) (w : W) (s : State) (i : Input)
    (ht : isStr (i.lookup "transformation") = true)
    (hl : isOptInt (i.lookup "limit") = true)
    (hm : isOptStr (i.lookup "mode") = true)
    (hsel : selectionTyped (i.lookup "textselection") = true)
    (ha : isSeq (i.lookup "arguments") = true)
    (hc : ∀ (w : W) (f : String), (env.Create w f).isSome = true) :
    (XRun.Validate env s i).out.returns = true ∧ (XRun.Run env w s i).out.returns = true := by
  have hvr := xrun_validate_returns env s i ht hl hm
  refine ⟨hvr, ?_⟩
  obtain ⟨t, ht⟩ := isStr_eq_true _ ht
  obtain ⟨args, ha⟩ := isSeq_eq_true _ ha
  cases hv : (XRun.Validate env s i).out with
  | fault => rw [hv] at hvr; simp [Outcome.returns] at hvr
  | ret r =>
    obtain ⟨b, e⟩ := r
    cases b with
    | false =>
      obtain ⟨m, hm⟩ := validate_false_has_error env w .XRun s i e hv
      subst hm
      simp only [XRun.Run, hv, errorReturn, Outcome.returns]
    | true =>
      have hreg := xrun_valid_registered env s i t e ht hv
      obtain ⟨refac, hrefac⟩ := lookup_of_mem_keys env.AllRefactorings t hreg
      obtain ⟨ts, hts⟩ := selection_of_typed env s i hsel
      have hp : XRun.prepare env s i
          = .ret (refac, { FileSystem := s.Filesystem, Selection := ts, Args := args }) := by
        simp only [XRun.prepare, hts, ht, ha, GetRefactoring, hrefac]
      have hf := files_no_fault env w i
        (refac.Run w { FileSystem := s.Filesystem, Selection := ts, Args := args }).Edits hm hc
      simp only [XRun.Run, hv, xrun_validate_state, hp]
      cases hfl : XRun.files env w i
        (refac.Run w { FileSystem := s.Filesystem, Selection := ts, Args := args }).Edits with
      | mk w1 l =>
        rw [hfl] at hf
        cases l with
        | fault => exact absurd rfl hf
        | abort err => simp only [errorReturn, Outcome.returns]
        | done changes => simp only [Outcome.returns]

/-- C9 fails as stated: at stage 1, List given `quality: 3` (a number, as a
JSON client can send) panics in the assertion `input["quality"].(string)`,
in `Validate` and in `Run`; neither returns a reply. -/
theorem no_fault_counterexample :
    (Command.Validate demoEnv [] .List openedState [("quality", .float 3)]).out.returns
      = false ∧
    (Command.Run demoEnv [] .List openedState [("quality", .float 3)]).out.returns
      = false := by
  decide

/-- C9, amended: for every command, session state and input in which every key
the command reads holds a value of the dynamic type the code asserts for it
(`WellTyped`), and with every diff file creatable, `Validate` and `Run` return
a value and do not panic. -/
theorem well_typed_never_faults {W E P : Type} (env : Env W E P) (w : W) (c : Command)
    (s : State) (i : Input) (ht : WellTyped env c i = true)
    (hc : ∀ (w : W) (f : String), (env.Create w f).isSome = true) :
    (Command.Validate env w c s i).out.returns = true ∧
    (Command.Run env w c s i).out.returns = true := by
  cases c
  · exact about_no_fault w s i
  · exact list_no_fault env w s i ht
  · exact ⟨rfl, rfl⟩
  · exact params_no_fault env w s i ht
  · simp only [WellTyped, Bool.and_eq_true] at ht
    exact setdir_no_fault env w s i ht.1 ht.2
  · simp only [WellTyped, Bool.and_eq_true] at ht
    obtain ⟨⟨⟨⟨h1, h2⟩, h3⟩, h4⟩, h5⟩ := ht
    exact xrun_no_fault env w s i h1 h2 h3 h4 h5 hc

/-- C9 amended, at an instance: the walk-through xrun request on a configured
session. -/
theorem well_typed_never_faults_witness :
    WellTyped plainEnv .XRun demoXRunInput = true ∧
    (∀ (w : DemoWorld) (f : String), (plainEnv.Create w f).isSome = true) ∧
    (Command.Validate plainEnv [] .XRun configuredState demoXRunInput).out.returns = true ∧
    (Command.Run plainEnv [] .XRun configuredState demoXRunInput).out.returns = true :=
  ⟨by decide, fun _ _ => rfl,
    well_typed_never_faults plainEnv [] .XRun configuredState demoXRunInput (by decide)
      (fun _ _ => rfl)⟩

/-- C10 fails on the code: Setdir run with `mode: "web"` on an opened session
returns the reply `reply: "Error", message: "Web mode not supported"` together
with a nil error, where the claim asks for an error whose text is the
message. -/
theorem setdir_web_returns_nil_error :
    (Setdir.Run demoEnv [] openedState [("mode", .str "web")]).out
      = .ret ([("reply", .str "Error"), ("message", .str "Web mode not supported")], none) :=
  rfl

/-! ## The commands that only read the session -/

/-- C11: About, List, Params and XRun never write the session: for every state
`s` and input `i` the state after their `Validate` and after their `Run` is
`s`, whatever the reply (OK, Error or a panic); so a command whose `Run`
leaves another state is Open or Setdir. -/
theorem read_only_commands_keep_state {W E P : Type} (env : Env W E P) (w : W)
    (c : Command) (s : State) (i : Input)
    (hc : c = .About ∨ c = .List ∨ c = .Params ∨ c = .XRun) :
    (Command.Validate env w c s i).state = s ∧ (Command.Run env w c s i).state = s := by
  refine ⟨command_validate_state env w c s i, ?_⟩
  rcases hc with hc | hc | hc | hc <;> subst hc
  · simp only [Command.Run, About.Run, about_validate_state]
    repeat (first | rfl | split)
  · simp only [Command.Run, List.Run, list_validate_state]
    repeat (first | rfl | split)
  · simp only [Command.Run, Params.Run, params_validate_state]
    repeat (first | rfl | split)
  · simp only [Command.Run, XRun.Run, xrun_validate_state]
    repeat (first | rfl | split)

/-- C11, at instances: an accepted XRun and a rejected List leave the session
as it was. -/
theorem read_only_commands_keep_state_witness :
    ((Command.Validate demoEnv [] .XRun configuredState demoXRunInput).state
        = configuredState ∧
      (Command.Run demoEnv [] .XRun configuredState demoXRunInput).state
        = configuredState) ∧
    ((Command.Validate demoEnv [] .List openedState []).state = openedState ∧
      (Command.Run demoEnv [] .List openedState []).state = openedState) :=
  ⟨read_only_commands_keep_state demoEnv [] .XRun configuredState demoXRunInput
      (Or.inr (Or.inr (Or.inr rfl))),
   read_only_commands_keep_state demoEnv [] .List openedState [] (Or.inr (Or.inl rfl))⟩

/-! ## The translation of an engine result -/

/-- The shape of a successful `XRun.Run`: the input was prepared, the engine
ran, the loop over the edits ran to its end, and the reply is the final one. -/
theorem xrun_ok_shape {W E P : Type} (env : Env W E P) (w : W) (s : State) (i : Input)
    (reply : Reply) (err : Option String)
    (h : (XRun.Run env w s i).out = .ret (reply, err))
    (hok : reply.lookup "reply" = some (.str "OK")) :
    ∃ refac config w1 changes, XRun.prepare env s i = .ret (refac, config) ∧
      XRun.files env w i (refac.Run w config).Edits = (w1, .done changes) ∧
      reply = XRun.okReply refac.Description.Name (XRun.logs (refac.Run w config).Log)
        changes (refac.Run w config).FSChanges ∧
      err = none := by
  unfold XRun.Run at h
  simp only [xrun_validate_state] at h
  split at h
  · simp at h
  · have := errorReturn_not_ok _ _ _ h
    rw [this] at hok; simp at hok
  · split at h
    · simp at h
    · rename_i refac config hp
      split at h
      · simp at h
      · dsimp only at h
        have := errorReturn_not_ok _ _ _ h
        rw [this] at hok; simp at hok
      · rename_i w1 changes hf
        simp only [Outcome.ret.injEq, Prod.mk.injEq] at h
        exact ⟨refac, config, w1, changes, hp, hf, h.1.symm, h.2.symm⟩

/-- The key `log` of the final reply of `XRun.Run`. -/
theorem okReply_lookup_log (name : String) (logs : List (List (String × Field)))
    (changes : List (List (String × String))) (fs : List FSChange) :
    (XRun.okReply name logs changes fs).lookup "log" = some (.maps logs) := by
  unfold XRun.okReply
  split <;> rfl

/-- The key `files` of the final reply of `XRun.Run`. -/
theorem okReply_lookup_files (name : String) (logs : List (List (String × Field)))
    (changes : List (List (String × String))) (fs : List FSChange) :
    (XRun.okReply name logs changes fs).lookup "files" = some (.strMaps changes) := by
  unfold XRun.okReply
  split <;> rfl

/-- The key `reply` of the final reply of `XRun.Run`. -/
theorem okReply_lookup_reply (name : String) (logs : List (List (String × Field)))
    (changes : List (List (String × String))) (fs : List FSChange) :
    (XRun.okReply name logs changes fs).lookup "reply" = some (.str "OK") := by
  unfold XRun.okReply
  split <;> rfl

/-- C12: for every successful `XRun.Run`, with `fs` the change sequence of the
engine result: when `fs` is not empty the reply has an `fsChanges` list, and
an `fsChanges` list of the reply has the length of `fs` and its k-th record is
the serialization of the k-th change: `create` with `file` and `content` for
CreateFile, `delete` with `path` for Remove, `rename` with `from` and `to` for
Rename. -/
theorem fsChanges_records {W E P : Type} (env : Env W E P) (w : W) (s : State) (i : Input)
    (reply : Reply) (err : Option String)
    (h : (XRun.Run env w s i).out = .ret (reply, err))
    (hok : reply.lookup "reply" = some (.str "OK")) :
    ∃ refac config, XRun.prepare env s i = .ret (refac, config) ∧
      ((refac.Run w config).FSChanges ≠ [] → ∃ l, reply.lookup "fsChanges" = some (.strMaps l)) ∧
      ∀ l, reply.lookup "fsChanges" = some (.strMaps l) →
        l.length = (refac.Run w config).FSChanges.length ∧
        ∀ (k : Nat) (c : FSChange), (refac.Run w config).FSChanges[k]? = some c →
          l[k]? = some (match c with
            | .CreateFile path contents =>
              [("change", "create"), ("file", path), ("content", contents)]
            | .Remove path => [("change", "delete"), ("path", path)]
            | .Rename path newName =>
              [("change", "rename"), ("from", path), ("to", newName)]) := by
  obtain ⟨refac, config, w1, changes, hp, _, hr, _⟩ := xrun_ok_shape env w s i reply err h hok
  refine ⟨refac, config, hp, ?_, ?_⟩
  · intro hne
    rw [hr, okReply_lookup_fsChanges]
    cases hfs : (refac.Run w config).FSChanges with
    | nil => exact absurd hfs hne
    | cons c cs => exact ⟨_, rfl⟩
  · intro l hl
    rw [hr, okReply_lookup_fsChanges] at hl
    cases hfs : (refac.Run w config).FSChanges with
    | nil => rw [hfs] at hl; simp at hl
    | cons c cs =>
      rw [hfs] at hl
      simp only [Option.some.injEq, ReplyVal.strMaps.injEq] at hl
      subst hl
      refine ⟨by simp, ?_⟩
      intro k c1 hk
      rw [List.getElem?_map, hk]
      cases c1 <;> rfl

/-- C12, at an instance: a transformation that reports one file removal. -/
theorem fsChanges_records_witness :
    (XRun.Run demoEnv [] configuredState
      [("transformation", .str "remove"), ("textselection", demoSelection "a.go"),
       ("arguments", .seq [])]).out
      = .ret ([("reply", .str "OK"), ("description", .str "Remove"), ("log", .maps []),
          ("files", .strMaps []),
          ("fsChanges", .strMaps [[("change", "delete"), ("path", "/tmp/proj/a.go")]])],
          none) ∧
    ∃ refac config, XRun.prepare demoEnv configuredState
        [("transformation", .str "remove"), ("textselection", demoSelection "a.go"),
         ("arguments", .seq [])] = .ret (refac, config) ∧
      ((refac.Run [] config).FSChanges ≠ [] →
        ∃ l, List.lookup "fsChanges" ([("reply", .str "OK"), ("description", .str "Remove"),
          ("log", .maps []), ("files", .strMaps []),
          ("fsChanges", .strMaps [[("change", "delete"), ("path", "/tmp/proj/a.go")]])]
          : Reply) = some (.strMaps l)) ∧
      ∀ l, List.lookup "fsChanges" ([("reply", .str "OK"), ("description", .str "Remove"),
          ("log", .maps []), ("files", .strMaps []),
          ("fsChanges", .strMaps [[("change", "delete"), ("path", "/tmp/proj/a.go")]])]
          : Reply) = some (.strMaps l) →
        l.length = (refac.Run [] config).FSChanges.length ∧
        ∀ (k : Nat) (c : FSChange), (refac.Run [] config).FSChanges[k]? = some c →
          l[k]? = some (match c with
            | .CreateFile path contents =>
              [("change", "create"), ("file", path), ("content", contents)]
            | .Remove path => [("change", "delete"), ("path", path)]
            | .Rename path newName =>
              [("change", "rename"), ("from", path), ("to", newName)]) :=
  ⟨rfl, fsChanges_records demoEnv [] configuredState
      [("transformation", .str "remove"), ("textselection", demoSelection "a.go"),
       ("arguments", .seq [])] _ none rfl rfl⟩

/-- C13: for every successful `XRun.Run` the reply has a `log` list with the
length of the engine log, and its k-th record is `severity`, `message` of the
k-th entry, with Info mapped to "", Warning to "warning", Error to "error" and
the message unchanged. -/
theorem log_records {W E P : Type} (env : Env W E P) (w : W) (s : State) (i : Input)
    (reply : Reply) (err : Option String)
    (h : (XRun.Run env w s i).out = .ret (reply, err))
    (hok : reply.lookup "reply" = some (.str "OK")) :
    ∃ refac config l, XRun.prepare env s i = .ret (refac, config) ∧
      reply.lookup "log" = some (.maps l) ∧
      l.length = (refac.Run w config).Log.length ∧
      ∀ (k : Nat) (entry : Entry), (refac.Run w config).Log[k]? = some entry →
        l[k]? = some [("severity", .str (match entry.Severity with
            | .Info => ""
            | .Warning => "warning"
            | .Error => "error")), ("message", .str entry.Message)] := by
  obtain ⟨refac, config, w1, changes, hp, _, hr, _⟩ := xrun_ok_shape env w s i reply err h hok
  refine ⟨refac, config, XRun.logs (refac.Run w config).Log, hp, ?_, ?_, ?_⟩
  · rw [hr, okReply_lookup_log]
  · simp [XRun.logs]
  · intro k entry hk
    simp only [XRun.logs, List.getElem?_map, hk, Option.map_some']
    cases hsev : entry.Severity <;> rfl

/-- C13, at an instance: the walk-through request, whose engine logs one
warning. -/
theorem log_records_witness :
    (XRun.Run demoEnv [] configuredState demoXRunInput).out
      = .ret ([("reply", .str "OK"), ("description", .str "Rename"),
          ("log", .maps [[("severity", .str "warning"), ("message", .str "check the result")]]),
          ("files", .strMaps [[("filename", "/tmp/proj/a.go"),
            ("patchFile", "/tmp/proj/a.go.diff")]])], none) ∧
    ∃ refac config l, XRun.prepare demoEnv configuredState demoXRunInput
        = .ret (refac, config) ∧
      List.lookup "log" ([("reply", .str "OK"), ("description", .str "Rename"),
          ("log", .maps [[("severity", .str "warning"), ("message", .str "check the result")]]),
          ("files", .strMaps [[("filename", "/tmp/proj/a.go"),
            ("patchFile", "/tmp/proj/a.go.diff")]])] : Reply) = some (.maps l) ∧
      l.length = (refac.Run [] config).Log.length ∧
      ∀ (k : Nat) (entry : Entry), (refac.Run [] config).Log[k]? = some entry →
        l[k]? = some [("severity", .str (match entry.Severity with
            | .Info => ""
            | .Warning => "warning"
            | .Error => "error")), ("message", .str entry.Message)] :=
  ⟨rfl, log_records demoEnv [] configuredState demoXRunInput _ none rfl rfl⟩

/-! ## The files list of an XRun reply -/

/-- A patch loop that runs to its end has added one record per edited file,
in order. -/
theorem patchFiles_done_records {W E P : Type} (env : Env W E P)
    (edits : List (String × E)) :
    ∀ (w w1 : W) (acc changes : List (List (String × String))),
      XRun.patchFiles env w edits acc = (w1, .done changes) →
      changes = acc ++ edits.map (fun fe => [("filename", fe.1), ("patchFile", fe.1 ++ ".diff")]) := by
  induction edits with
  | nil =>
    intro w w1 acc changes h
    simp only [XRun.patchFiles, Prod.mk.injEq, Loop.done.injEq] at h
    simp [h.2]
  | cons fe rest ih =>
    intro w w1 acc changes h
    obtain ⟨f, e⟩ := fe
    simp only [XRun.patchFiles] at h
    split at h
    · simp at h
    · split at h
      · simp at h
      · have := ih _ _ _ _ h
        simp [this]

/-- The patch loop runs to its end when every patch can be computed and every
diff file can be created. -/
theorem patchFiles_runs {W E P : Type} (env : Env W E P) (edits : List (String × E))
    (hpatch : ∀ (w : W) (fe : String × E), fe ∈ edits →
      ∃ p, env.CreatePatchForFile w fe.2 fe.1 = .ok p)
    (hcreate : ∀ (w : W) (fe : String × E), fe ∈ edits →
      (env.Create w (fe.1 ++ ".diff")).isSome = true) :
    ∀ (w : W) (acc : List (List (String × String))),
      ∃ w1 changes, XRun.patchFiles env w edits acc = (w1, .done changes) := by
  induction edits with
  | nil => intro w acc; exact ⟨w, acc, rfl⟩
  | cons fe rest ih =>
    intro w acc
    obtain ⟨f, e⟩ := fe
    obtain ⟨p, hp⟩ := hpatch w (f, e) (List.mem_cons_self _ _)
    obtain ⟨w1, hw1⟩ := Option.isSome_iff_exists.mp (hcreate w (f, e) (List.mem_cons_self _ _))
    have hp1 : env.CreatePatchForFile w e f = .ok p := hp
    have hw2 : env.Create w (f ++ ".diff") = some w1 := hw1
    simp only [XRun.patchFiles, hp1, hw2]
    exact ih (fun w2 fe2 h2 => hpatch w2 fe2 (List.mem_cons_of_mem _ h2))
      (fun w2 fe2 h2 => hcreate w2 fe2 (List.mem_cons_of_mem _ h2)) _ _

/-- The text loop runs to its end when every application succeeds, and adds
one record per edited file, in order. -/
theorem textFiles_runs {W E P : Type} (env : Env W E P) (w : W)
    (content : String × E → String) (edits : List (String × E)) :
    ∀ (acc : List (List (String × String))),
      (∀ fe ∈ edits, env.ApplyToFile w fe.2 fe.1 = .ok (content fe)) →
      XRun.textFiles env w edits acc
        = .done (acc ++ edits.map (fun fe => [("filename", fe.1), ("content", content fe)])) := by
  induction edits with
  | nil => intro acc _; simp [XRun.textFiles]
  | cons fe rest ih =>
    intro acc h
    obtain ⟨f, e⟩ := fe
    have h1 : env.ApplyToFile w e f = .ok (content (f, e)) := h (f, e) (List.mem_cons_self _ _)
    simp only [XRun.textFiles, h1]
    rw [ih _ (fun fe2 h2 => h fe2 (List.mem_cons_of_mem _ h2))]
    simp

/-- The text loop stops at a failing application and reports its error. -/
theorem textFiles_aborts {W E P : Type} (env : Env W E P) (w : W)
    (edits : List (String × E)) :
    ∀ (acc : List (List (String × String))),
      (∃ fe ∈ edits, ∃ msg, env.ApplyToFile w fe.2 fe.1 = .error msg) →
      ∃ fe ∈ edits, ∃ msg, env.ApplyToFile w fe.2 fe.1 = .error msg ∧
        XRun.textFiles env w edits acc = .abort msg := by
  induction edits with
  | nil => intro acc h; obtain ⟨fe, hfe, _⟩ := h; simp at hfe
  | cons fe rest ih =>
    intro acc h
    obtain ⟨f, e⟩ := fe
    cases h1 : env.ApplyToFile w e f with
    | error msg =>
      exact ⟨(f, e), List.mem_cons_self _ _, msg, h1, by simp only [XRun.textFiles, h1]⟩
    | ok c =>
      obtain ⟨fe2, hfe2, msg, hmsg⟩ := h
      have hin : fe2 ∈ rest := by
        rcases List.mem_cons.mp hfe2 with heq | hin
        · subst heq
          rw [h1] at hmsg
          cases hmsg
        · exact hin
      obtain ⟨fe3, hfe3, msg3, hmsg3, hrun⟩ :=
        ih (acc ++ [[("filename", f), ("content", c)]]) ⟨fe2, hin, msg, hmsg⟩
      exact ⟨fe3, List.mem_cons_of_mem _ hfe3, msg3, hmsg3, by
        simp only [XRun.textFiles, h1, hrun]⟩

/-- In patch mode the branch on the mode takes the patch loop. -/
theorem files_patch_mode {W E P : Type} (env : Env W E P) (w : W) (i : Input)
    (edits : List (String × E))
    (hmode : i.lookup "mode" = none ∨ i.lookup "mode" = some (.str "patch")) :
    XRun.files env w i edits = XRun.patchFiles env w edits [] := by
  rcases hmode with hm | hm
  · simp only [XRun.files, hm]
  · simp only [XRun.files, hm, if_true]

/-- C15: in patch mode (`mode` absent or "patch"), an OK reply of `XRun.Run`
has a `files` list with exactly one record per entry of the engine's edits, in
order, each `filename: f, patchFile: f + ".diff"`; and such a reply is
returned whenever the input is accepted and prepared, every patch computation
succeeds and every diff file can be created. -/
theorem patch_files_records {W E P : Type} (env : Env W E P) (w : W) (s : State)
    (i : Input)
    (hmode : i.lookup "mode" = none ∨ i.lookup "mode" = some (.str "patch")) :
    (∀ (reply : Reply) (err : Option String),
      (XRun.Run env w s i).out = .ret (reply, err) →
      reply.lookup "reply" = some (.str "OK") →
      ∃ refac config, XRun.prepare env s i = .ret (refac, config) ∧
        reply.lookup "files" = some (.strMaps ((refac.Run w config).Edits.map
          (fun fe => [("filename", fe.1), ("patchFile", fe.1 ++ ".diff")])))) ∧
    (∀ (e : Option String) (refac : Refactoring W E) (config : Config),
      (XRun.Validate env s i).out = .ret (true, e) →
      XRun.prepare env s i = .ret (refac, config) →
      (∀ (w1 : W) (fe : String × E), fe ∈ (refac.Run w config).Edits →
        ∃ p, env.CreatePatchForFile w1 fe.2 fe.1 = .ok p) →
      (∀ (w1 : W) (fe : String × E), fe ∈ (refac.Run w config).Edits →
        (env.Create w1 (fe.1 ++ ".diff")).isSome = true) →
      ∃ reply, (XRun.Run env w s i).out = .ret (reply, none) ∧
        reply.lookup "reply" = some (.str "OK") ∧
        reply.lookup "files" = some (.strMaps ((refac.Run w config).Edits.map
          (fun fe => [("filename", fe.1), ("patchFile", fe.1 ++ ".diff")])))) := by
  constructor
  · intro reply err h hok
    obtain ⟨refac, config, w1, changes, hp, hf, hr, _⟩ :=
      xrun_ok_shape env w s i reply err h hok
    refine ⟨refac, config, hp, ?_⟩
    rw [files_patch_mode env w i _ hmode] at hf
    have := patchFiles_done_records env _ w w1 [] changes hf
    rw [hr, okReply_lookup_files, this]
    simp
  · intro e refac config hv hp hpatch hcreate
    obtain ⟨w1, changes, hrun⟩ := patchFiles_runs env _ hpatch hcreate w []
    have hrec := patchFiles_done_records env _ w w1 [] changes hrun
    have hf : XRun.files env w i (refac.Run w config).Edits = (w1, .done changes) := by
      rw [files_patch_mode env w i _ hmode, hrun]
    refine ⟨XRun.okReply refac.Description.Name (XRun.logs (refac.Run w config).Log)
      changes (refac.Run w config).FSChanges, ?_, okReply_lookup_reply _ _ _ _, ?_⟩
    · simp only [XRun.Run, hv, xrun_validate_state, hp, hf]
    · rw [okReply_lookup_files, hrec]
      simp

/-- C15, at an instance: the walk-through request, without a mode. -/
theorem patch_files_records_witness :
    List.lookup "mode" demoXRunInput = none ∧
    ∃ reply, (XRun.Run demoEnv [] configuredState demoXRunInput).out = .ret (reply, none) ∧
      reply.lookup "reply" = some (.str "OK") ∧
      reply.lookup "files" = some (.strMaps
        [[("filename", "/tmp/proj/a.go"), ("patchFile", "/tmp/proj/a.go.diff")]]) :=
  ⟨rfl, (patch_files_records demoEnv [] configuredState demoXRunInput (Or.inl rfl)).2
    none demoRename
    { FileSystem := .localFS
      Selection := { Filename := "/tmp/proj/a.go", StartLine := 1, StartCol := 1,
                     EndLine := 1, EndCol := 5 }
      Args := [.str "newName"] }
    rfl rfl
    (fun _ fe hfe => by
      have : fe = ("/tmp/proj/a.go", "edit") := by simpa [demoRename] using hfe
      subst this
      exact ⟨"patch:edit", rfl⟩)
    (fun _ fe hfe => by
      have : fe = ("/tmp/proj/a.go", "edit") := by simpa [demoRename] using hfe
      subst this
      rfl)⟩

/-- C16: in text mode (`mode` is "text"), on an accepted and prepared input,
if applying each edit set to its file succeeds with content `content fe`, then
`XRun.Run` returns an OK reply whose `files` list has exactly one record
`filename: f, content: c` per entry of the engine's edits, in order, with `c`
the applied content; if some application fails, the reply is an Error
carrying the message of a failing application (the first one met); the world
is unchanged either way. -/
theorem text_files_records {W E P : Type} (env : Env W E P) (w : W) (s : State)
    (i : Input) (e : Option String) (refac : Refactoring W E) (config : Config)
    (content : String × E → String)
    (hmode : i.lookup "mode" = some (.str "text"))
    (hv : (XRun.Validate env s i).out = .ret (true, e))
    (hp : XRun.prepare env s i = .ret (refac, config)) :
    ((∀ fe ∈ (refac.Run w config).Edits, env.ApplyToFile w fe.2 fe.1 = .ok (content fe)) →
      ∃ reply, (XRun.Run env w s i).out = .ret (reply, none) ∧
        reply.lookup "reply" = some (.str "OK") ∧
        reply.lookup "files" = some (.strMaps ((refac.Run w config).Edits.map
          (fun fe => [("filename", fe.1), ("content", content fe)])))) ∧
    ((∃ fe ∈ (refac.Run w config).Edits, ∃ msg, env.ApplyToFile w fe.2 fe.1 = .error msg) →
      ∃ fe ∈ (refac.Run w config).Edits, ∃ msg,
        env.ApplyToFile w fe.2 fe.1 = .error msg ∧
        (XRun.Run env w s i).out
          = .ret ([("reply", .str "Error"), ("message", .str msg)], some msg)) ∧
    (XRun.Run env w s i).world = w := by
  have hne : ¬ ("text" = "patch") := by decide
  have hf : ∀ edits : List (String × E),
      XRun.files env w i edits = (w, XRun.textFiles env w edits []) := by
    intro edits
    simp only [XRun.files, hmode, hne, if_false]
  refine ⟨?_, ?_, ?_⟩
  · intro hall
    have hrun := textFiles_runs env w content _ [] hall
    refine ⟨XRun.okReply refac.Description.Name (XRun.logs (refac.Run w config).Log)
      ((refac.Run w config).Edits.map
        (fun fe => [("filename", fe.1), ("content", content fe)]))
      (refac.Run w config).FSChanges, ?_, okReply_lookup_reply _ _ _ _,
      okReply_lookup_files _ _ _ _⟩
    simp only [XRun.Run, hv, xrun_validate_state, hp, hf, hrun, List.nil_append]
  · intro hfail
    obtain ⟨fe, hfe, msg, hmsg, hrun⟩ := textFiles_aborts env w _ [] hfail
    refine ⟨fe, hfe, msg, hmsg, ?_⟩
    simp only [XRun.Run, hv, xrun_validate_state, hp, hf, hrun, errorReturn]
  · simp only [XRun.Run, hv, xrun_validate_state, hp, hf]
    cases XRun.textFiles env w (refac.Run w config).Edits [] <;> rfl

/-- C16, at an instance: the walk-through request with `mode: "text"`. -/
theorem text_files_records_witness :
    List.lookup "mode" (("mode", Value.str "text") :: demoXRunInput) = some (.str "text") ∧
    (∃ reply, (XRun.Run demoEnv [] configuredState
          (("mode", .str "text") :: demoXRunInput)).out = .ret (reply, none) ∧
        reply.lookup "reply" = some (.str "OK") ∧
        reply.lookup "files" = some (.strMaps
          [[("filename", "/tmp/proj/a.go"), ("content", "text:edit")]])) ∧
    (XRun.Run demoEnv [] configuredState (("mode", .str "text") :: demoXRunInput)).world
      = [] :=
  ⟨rfl,
    (text_files_records demoEnv [] configuredState (("mode", .str "text") :: demoXRunInput)
      none demoRename
      { FileSystem := .localFS
        Selection := { Filename := "/tmp/proj/a.go", StartLine := 1, StartCol := 1,
                       EndLine := 1, EndCol := 5 }
        Args := [.str "newName"] }
      (fun fe => "text:" ++ fe.2) rfl rfl rfl).1
      (fun fe hfe => by
        have : fe = ("/tmp/proj/a.go", "edit") := by simpa [demoRename] using hfe
        subst this
        rfl),
    (text_files_records demoEnv [] configuredState (("mode", .str "text") :: demoXRunInput)
      none demoRename
      { FileSystem := .localFS
        Selection := { Filename := "/tmp/proj/a.go", StartLine := 1, StartCol := 1,
                       EndLine := 1, EndCol := 5 }
        Args := [.str "newName"] }
      (fun fe => "text:" ++ fe.2) rfl rfl rfl).2.2⟩

/-! ## Where the code departs from its own messages and comments -/

/-- C14 fails on the code: at stage 1 `List.Validate` accepts the quality
"not_production", which is none of the three allowed values, because the
pattern is matched anywhere inside the value; `List.Run` then answers OK. -/
theorem list_accepts_other_quality :
    (List.Validate openedState [("quality", .str "not_production")]).out
      = .ret (true, none) ∧
    (List.Run demoEnv [] openedState [("quality", .str "not_production")]).out
      = .ret ([("reply", .str "OK"),
          ("transformations", .strMaps [[("shortName", "rename"), ("name", "Rename")],
            [("shortName", "remove"), ("name", "Remove")]])], none) :=
  ⟨rfl, rfl⟩

/-- C17 fails on the code: Setdir run with `mode: "webdav"` on an opened
session returns an OK reply and sets the stage to 2, while the mode of the
session is "webdav", not "local", the directory is still empty and no file
system is bound. -/
theorem setdir_ok_without_local :
    (Setdir.Run demoEnv [] openedState [("mode", .str "webdav")]).out
      = .ret ([("reply", .str "OK")], none) ∧
    (Setdir.Run demoEnv [] openedState [("mode", .str "webdav")]).state
      = { State := 2, Mode := "webdav", Dir := "", Filesystem := .unbound } :=
  ⟨rfl, rfl⟩

/-- C18 fails on the code: at stage 2, with a non-empty registry,
`XRun.Validate` panics on an input without the `transformation` key, and it
accepts an input without the `textselection` key, on which `XRun.Run` then
panics. -/
theorem xrun_missing_keys_not_rejected :
    configuredState.State ≥ 2 ∧
    (XRun.Validate demoEnv configuredState []).out = .fault ∧
    (XRun.Validate demoEnv configuredState [("transformation", .str "rename")]).out
      = .ret (true, none) ∧
    (XRun.Run demoEnv [] configuredState [("transformation", .str "rename")]).out
      = .fault :=
  ⟨by decide, rfl, rfl, rfl⟩

/-- C19 fails on the code: at stage 2, with a registered transformation and no
limit, `XRun.Validate` accepts the mode "patchwork", which is neither "text"
nor "patch", and `XRun.Run` takes the text branch on it: the reply carries the
applied content and no diff file is written. -/
theorem xrun_accepts_other_mode :
    (XRun.Validate demoEnv configuredState (("mode", .str "patchwork") :: demoXRunInput)).out
      = .ret (true, none) ∧
    (XRun.Run demoEnv [] configuredState (("mode", .str "patchwork") :: demoXRunInput)).out
      = .ret ([("reply", .str "OK"), ("description", .str "Rename"),
          ("log", .maps [[("severity", .str "warning"), ("message", .str "check the result")]]),
          ("files", .strMaps [[("filename", "/tmp/proj/a.go"), ("content", "text:edit")]])],
          none) ∧
    (XRun.Run demoEnv [] configuredState (("mode", .str "patchwork") :: demoXRunInput)).world
      = [] :=
  ⟨rfl, rfl, rfl⟩

/-- C20 fails on the code: in patch mode, when the diff file of an edited file
cannot be created, `XRun.Run` panics and returns no reply at all; a failing
patch computation, by contrast, gives the Error reply with its message. -/
theorem xrun_create_failure_panics :
    demoEnv.Create [] "/tmp/proj/locked.go.diff" = none ∧
    (XRun.Run demoEnv [] configuredState
      [("transformation", .str "rename"), ("textselection", demoSelection "locked.go"),
       ("arguments", .seq [])]).out = .fault ∧
    (XRun.Run demoEnv [] configuredState
      [("transformation", .str "rename"), ("textselection", demoSelection "gone.go"),
       ("arguments", .seq [])]).out
      = .ret ([("reply", .str "Error"), ("message", .str "gone.go: no such file")],
          some "gone.go: no such file") :=
  ⟨rfl, rfl, rfl⟩

end Protocol
